import Mathlib

/-!
Shallow embedding of the CExpress HTTP server library (C sources) in Lean 4.

Strings are modelled as `List Char`; a nullable C pointer is modelled as an
`Option`.  Allocation is assumed to succeed (an allocation-failure path in the
C code is not reached in the model); every other branch of the C code is
reproduced.  A C execution that runs into undefined behaviour (dereferencing
the NULL end marker of a token array, `strlen`/`strdup` on NULL) is modelled
by the value `none` of an `Option` result.
-/

namespace CExpress

/-- HTTP method vocabulary (README / `include` headers):
`typedef enum {GET, POST, PUT, DELETE, FAIL} method_t;` — `GET` is the
enumeration's value 0 (the `src/src` headers drop `FAIL` but `routers.c`
uses it; the README/API-reference definition is the shared one). -/
inductive Method where
  | GET
  | POST
  | PUT
  | DELETE
  | FAIL
deriving DecidableEq

/-- Numeric value of each `method_t` enumerator in the C `enum`. -/
def methodCode : Method → Nat
  | .GET => 0
  | .POST => 1
  | .PUT => 2
  | .DELETE => 3
  | .FAIL => 4

/-- `typedef char *(*HandlerFunc)(void);` — a handler takes no argument and
returns an owned string, or NULL. -/
abbrev HandlerFn := Unit → Option (List Char)

/-- `Router` (routers.h): method, path, handler.  The path is a `char *`
(NULL for the `FAIL` router produced by a failed extraction), the handler a
function pointer (NULL when absent). -/
structure Router where
  method : Method
  path : Option (List Char)
  handler : Option HandlerFn

/-- The `FAIL`-tagged router returned by `extract_router` when line
extraction or splitting fails: `method = FAIL`, `path = NULL`,
`handler = NULL`. -/
def failRouter : Router := ⟨Method.FAIL, none, none⟩

/-- `same_router` (routers.c:26): equal iff method and path agree
(`strcmp` on the paths; handlers are ignored). -/
def same_router (a b : Router) : Bool :=
  decide (a.method = b.method) && decide (a.path = b.path)

/-- Scanning core of `split` (utils.c:90): cut the buffer at every occurrence
of `sep` (a token is emitted at each separator, empty tokens included); after
the scan a trailing token is emitted iff characters remain after the last
separator (`wrd_start < buff_size`).  `acc` is the current word. -/
def splitGo (sep : Char) : List Char → List Char → List (List Char)
  | [], acc => if acc = [] then [] else [acc]
  | c :: rest, acc =>
    if c = sep then acc :: splitGo sep rest []
    else splitGo sep rest (acc ++ [c])

/-- `split` (utils.c:90): `NULL` buffer or zero length yields the
"cannot process" result (`NULL`); otherwise the token list, NULL-terminated
in C (the end marker corresponds to the end of the Lean list). -/
def split (buffer : Option (List Char)) (sep : Char) : Option (List (List Char)) :=
  match buffer with
  | none => none
  | some b => if b = [] then none else some (splitGo sep b [])

/-- Whether a buffer contains the two-character terminator sequence
carriage-return directly followed by line-feed. -/
def hasCRLF : List Char → Bool
  | c1 :: c2 :: rest => (c1 == '\r' && c2 == '\n') || hasCRLF (c2 :: rest)
  | _ => false

/-- Scanning core of `extract_lines` (utils.c:192): a line is emitted at every
CR-LF pair; a zero-length line (terminator right after the previous
terminator) ends the header block and stops the scan; if the end of the
buffer is reached without a blank line, the trailing partial segment is
emitted as a final line.  The loop bound `i < buff_size - 1` means a lone
final CR cannot start a terminator. -/
def extractGo : List Char → List Char → List (List Char)
  | [], acc => if acc = [] then [] else [acc]
  | [c], acc => [acc ++ [c]]
  | c1 :: c2 :: rest, acc =>
    if c1 = '\r' ∧ c2 = '\n' then
      if acc = [] then [] else acc :: extractGo rest []
    else extractGo (c2 :: rest) (acc ++ [c1])

/-- `extract_lines` (utils.c:192): `NULL` or empty buffer yields
"cannot process" (`NULL`); otherwise the scan above. -/
def extract_lines (buffer : Option (List Char)) : Option (List (List Char)) :=
  match buffer with
  | none => none
  | some b => if b = [] then none else some (extractGo b [])

/-- The method-matching chain of `extract_router` (routers.c:138-148):
`strcmp` against the four verbs; an unrecognized verb leaves the
`memset`-zeroed method field at the enumeration's value 0, which is `GET`. -/
def parse_method (m : List Char) : Method :=
  if m = "GET".toList then Method.GET
  else if m = "POST".toList then Method.POST
  else if m = "PUT".toList then Method.PUT
  else if m = "DELETE".toList then Method.DELETE
  else Method.GET

/-- `extract_router` (routers.c:111): extract the lines; on failure return the
`FAIL` router.  Split the first line on a space; on failure return the `FAIL`
router.  Otherwise match the first token against the verbs and `strdup` the
second token as the path.  Two C accesses have no defined result and are
modelled as `none`: `strlen(extracted_lines[0])` when the line array is empty
(its slot 0 is the NULL end marker) and `strdup(header_sep[1])` when the
split produced a single token (slot 1 is the NULL end marker). -/
def extract_router (header : List Char) : Option Router :=
  match extract_lines (some header) with
  | none => some failRouter
  | some [] => none
  | some (line0 :: _) =>
    match split (some line0) ' ' with
    | none => some failRouter
    | some [] => none
    | some (m :: restToks) =>
      match restToks with
      | [] => none
      | p :: _ => some ⟨parse_method m, some p, none⟩

/-- `find_route` (routers.c:92): linear scan, index of the first router equal
to the argument, `-1` when none is. -/
def findIdx : List Router → Router → Int → Int
  | [], _, _ => -1
  | x :: rest, r, i => if same_router x r then i else findIdx rest r (i + 1)

/-- `find_route` wrapper starting the scan at index 0. -/
def find_route (router_lst : List Router) (router : Router) : Int :=
  findIdx router_lst router 0

/-- The first router of the list equal to the argument (the element
`items[find_route ...]` that `process_header` dereferences), `none` when
`find_route` reports `-1`. -/
def find_first : List Router → Router → Option Router
  | [], _ => none
  | x :: rest, r => if same_router x r then some x else find_first rest r

/-- `remove_route` (routers.c:66): find the first equal router, shift the
subsequent entries left by one, clear the vacated slot, return 1; return 0
when no router matches.  On the list of live entries the shift-and-clear is
exactly deletion of that element. -/
def remove_route : List Router → Router → Bool × List Router
  | [], _ => (false, [])
  | x :: rest, r =>
    if same_router x r then (true, rest)
    else
      let p := remove_route rest r
      (p.1, x :: p.2)

/-- `execute_handler` (handlers.c:20).  The response constructor
`add_http_header` has no definition in the snapshot and the transmission
`write` is a system call; both are passed as explicit environment functions.
The result pairs the returned int (as a Bool) with the trace of writes
performed on the socket.  Structure of the C body: fail on `client_sock ==
-1` or a NULL handler; call the handler, fail on NULL; build the response,
fail on NULL; write it and succeed iff the write returned a positive count.
The `header` argument is kept only for logging and is never read. -/
def execute_handler (header : List Char) (client_sock : Int)
    (handler : Option HandlerFn)
    (add_http : List Char → Nat → Option (List Char))
    (writeF : Int → List Char → Int) : Bool × List (Int × List Char) :=
  if client_sock = -1 then (false, [])
  else
    match handler with
    | none => (false, [])
    | some h =>
      match h () with
      | none => (false, [])
      | some body =>
        match add_http body body.length with
        | none => (false, [])
        | some response =>
          (decide (0 < writeF client_sock response), [(client_sock, response)])

/-- `process_header` (routers.c:179): extract a router from the raw buffer;
if its method is `FAIL` report failure; look the router up in the table, if
absent report failure; otherwise run `execute_handler` on the original
header, the client socket and the matched handler and propagate its result.
`none` propagates an undefined extraction (see `extract_router`). -/
def process_header (header : List Char) (client_sock : Int)
    (router_lst : List Router)
    (add_http : List Char → Nat → Option (List Char))
    (writeF : Int → List Char → Int) :
    Option (Bool × List (Int × List Char)) :=
  match extract_router header with
  | none => none
  | some er =>
    if er.method = Method.FAIL then some (false, [])
    else
      match find_first router_lst er with
      | none => some (false, [])
      | some rt => some (execute_handler header client_sock rt.handler add_http writeF)

/-- Binding mode (include/CExpress/server.h:44): `DEV` documents a bind to
127.0.0.1 only, `PROD` a bind to all interfaces. -/
inductive Mode where
  | DEV
  | PROD
deriving DecidableEq

/-- `INADDR_ANY`: the all-interfaces address 0.0.0.0. -/
def INADDR_ANY : Nat := 0

/-- The loopback address 127.0.0.1 (`LOCALHOST_IP` in the facade header). -/
def LOOPBACK_ADDR : Nat := 0x7f000001

/-- The configuration a freshly initialized server carries: the fields of
`struct Server` that `server_init` fills in before creating the socket. -/
structure ServerConfig where
  port : Nat
  maxClients : Nat
  backlog : Nat
  mode : Mode
  bindAddr : Nat

/-- `server_init` — signature per the facade (include/CExpress/server.h:90),
address setup per the implementation (src/src/server.c:144-147):
`server->addr.sin_addr.s_addr = INADDR_ANY;` with no reference to the mode
anywhere in the function (the snapshot's `server_init` body does not even
receive the mode). -/
def server_init (port maxClients backlog : Nat) (mode : Mode) : ServerConfig :=
  ⟨port, maxClients, backlog, mode, INADDR_ANY⟩

/-- What `read` reports for a tracked client socket in one pass of the
dispatch loop: not in the readiness set, a zero-byte read (peer
disconnected), `EINTR`, `EAGAIN`/`EWOULDBLOCK`, any other error, or a
successful read of a request buffer. -/
inductive ReadEvent where
  | notReady
  | closed
  | eintr
  | ewouldblock
  | fatal
  | data (buf : List Char)

/-- What the listening socket reports in one pass: not ready, `accept`
failed (the iteration is skipped with `continue`), or a new connection with
the given socket handle. -/
inductive AcceptEvent where
  | quiet
  | failed
  | conn (sock : Nat)

/-- The slot-filling loop of `server_start` (server.c:275-285): put the new
socket into the first slot whose `client_sock` is 0.  Returns the updated
slot list and whether a slot was found. -/
def placeClient : List Nat → Nat → List Nat × Bool
  | [], _ => ([], false)
  | s :: rest, ns =>
    if s = 0 then (ns :: rest, true)
    else
      let p := placeClient rest ns
      (s :: p.1, p.2)

/-- The per-client scan of `server_start` (server.c:288-325), one slot per
list entry, paired with that slot's `ReadEvent`.  A slot holding socket 0 is
never in the readiness set (only positive handles are added).  Semantics per
branch of the C code: zero-byte read — `remove_client` and `num_clients--`;
`EINTR` — retry next pass (`continue`); `EAGAIN`/`EWOULDBLOCK` — `break` out
of the scan; other read errors — `remove_client`, `num_clients--`, `break`;
data — `process_header`, and on failure write the fixed 404 fallback and
`remove_client` (the count is NOT decremented on this path).  Returns the
slot list and the count, `none` if `process_header` hit undefined
behaviour. -/
def scanClients (router_lst : List Router)
    (add_http : List Char → Nat → Option (List Char))
    (writeF : Int → List Char → Int) :
    List (Nat × ReadEvent) → Int → Option (List Nat × Int)
  | [], n => some ([], n)
  | (s, ev) :: rest, n =>
    if s = 0 then
      match scanClients router_lst add_http writeF rest n with
      | none => none
      | some p => some (s :: p.1, p.2)
    else
      match ev with
      | .notReady =>
        match scanClients router_lst add_http writeF rest n with
        | none => none
        | some p => some (s :: p.1, p.2)
      | .closed =>
        match scanClients router_lst add_http writeF rest (n - 1) with
        | none => none
        | some p => some (0 :: p.1, p.2)
      | .eintr =>
        match scanClients router_lst add_http writeF rest n with
        | none => none
        | some p => some (s :: p.1, p.2)
      | .ewouldblock => some (s :: rest.map Prod.fst, n)
      | .fatal => some (0 :: rest.map Prod.fst, n - 1)
      | .data buf =>
        match process_header buf (s : Int) router_lst add_http writeF with
        | none => none
        | some pr =>
          if pr.1 then
            match scanClients router_lst add_http writeF rest n with
            | none => none
            | some p => some (s :: p.1, p.2)
          else
            match scanClients router_lst add_http writeF rest n with
            | none => none
            | some p => some (0 :: p.1, p.2)

/-- One iteration of the `while (running)` loop of `server_start`
(server.c:242-326): service the listening socket first (a failed `accept`
skips the whole iteration), then scan the tracked clients.  The accept path
checks `num_clients >= max_clients` before filling a slot and increments the
count only when a slot was filled.  State: the slot list and the
`num_clients` counter. -/
def loopIter (maxClients : Nat) (router_lst : List Router)
    (add_http : List Char → Nat → Option (List Char))
    (writeF : Int → List Char → Int)
    (acc : AcceptEvent) (evs : List ReadEvent) (st : List Nat × Int) :
    Option (List Nat × Int) :=
  match acc with
  | .failed => some st
  | .quiet => scanClients router_lst add_http writeF (st.1.zip evs) st.2
  | .conn ns =>
    let st1 :=
      if (maxClients : Int) ≤ st.2 then st
      else
        let p := placeClient st.1 ns
        (p.1, if p.2 then st.2 + 1 else st.2)
    scanClients router_lst add_http writeF (st1.1.zip evs) st1.2

/-- A run of the dispatch loop over a list of per-iteration inputs. -/
def serverRun (maxClients : Nat) (router_lst : List Router)
    (add_http : List Char → Nat → Option (List Char))
    (writeF : Int → List Char → Int) :
    List (AcceptEvent × List ReadEvent) → List Nat × Int →
    Option (List Nat × Int)
  | [], st => some st
  | (a, evs) :: rest, st =>
    match loopIter maxClients router_lst add_http writeF a evs st with
    | none => none
    | some st' => serverRun maxClients router_lst add_http writeF rest st'

/-- The number of client slots whose socket handle is nonzero — what the
claimed invariant compares the active-client counter against. -/
def activeSlots (clients : List Nat) : Nat :=
  (clients.filter (fun s => s != 0)).length

/-- Spec-side join: the buffer formed by joining tokens with a separator
character (used to state the split round-trip property). -/
def joinSep (sep : Char) : List (List Char) → List Char
  | [] => []
  | [t] => t
  | t :: ts => t ++ sep :: joinSep sep ts

/-- The request buffer of the request-line resolution property. -/
def helloBuf : List Char := "GET /hello HTTP/1.1\r\nHost: x\r\n\r\n".toList

/-- A buffer containing no carriage-return/line-feed pair at all. -/
def noCrlfBuf : List Char := "GET /x HTTP/1.1".toList

/-- A request whose verb is not one of the four recognized methods. -/
def patchBuf : List Char := "PATCH /hello HTTP/1.1\r\n\r\n".toList

/-- The same request with the verb `GET`. -/
def getBuf : List Char := "GET /hello HTTP/1.1\r\n\r\n".toList

/-- A well-formed request whose method+path matches no registered route. -/
def reqNoRoute : List Char := "GET /nope HTTP/1.1\r\n\r\n".toList

/-- Environment stub standing in for `add_http_header`: wraps the body
unchanged and never fails. -/
def mockAddHttp : List Char → Nat → Option (List Char) := fun body _ => some body

/-- Environment stub standing in for the `write` system call: always reports
one byte written. -/
def mockWrite : Int → List Char → Int := fun _ _ => 1

/-- A concrete handler returning the body "Hello". -/
def hHello : HandlerFn := fun _ => some ("Hello".toList)

/-- Concrete route GET /a used to instantiate the route-table claims. -/
def routeA : Router := ⟨Method.GET, some ("/a".toList), some hHello⟩

/-- Concrete route POST /a. -/
def routeB : Router := ⟨Method.POST, some ("/a".toList), some hHello⟩

/-- Concrete route GET /c. -/
def routeC : Router := ⟨Method.GET, some ("/c".toList), some hHello⟩

/-- A router equals itself under `same_router`. -/
theorem same_router_self (r : Router) : same_router r r = true := by
  simp [same_router]

/-- One-step equation of `splitGo` on an empty buffer. -/
theorem splitGo_nil (sep : Char) (acc : List Char) :
    splitGo sep [] acc = if acc = [] then [] else [acc] := rfl

/-- One-step equation of `splitGo` on a nonempty buffer. -/
theorem splitGo_cons (sep c : Char) (rest acc : List Char) :
    splitGo sep (c :: rest) acc =
      if c = sep then acc :: splitGo sep rest [] else splitGo sep rest (acc ++ [c]) := rfl

/-- One-step equation of `extractGo` on an empty buffer. -/
theorem extractGo_nil (acc : List Char) :
    extractGo [] acc = if acc = [] then [] else [acc] := rfl

/-- One-step equation of `extractGo` on a single-character buffer. -/
theorem extractGo_one (c : Char) (acc : List Char) :
    extractGo [c] acc = [acc ++ [c]] := rfl

/-- One-step equation of `extractGo` on a buffer of length at least two. -/
theorem extractGo_cons2 (c1 c2 : Char) (rest acc : List Char) :
    extractGo (c1 :: c2 :: rest) acc =
      if c1 = '\r' ∧ c2 = '\n' then
        if acc = [] then [] else acc :: extractGo rest []
      else extractGo (c2 :: rest) (acc ++ [c1]) := rfl

/-- One-step equation of `hasCRLF` on a buffer of length at least two. -/
theorem hasCRLF_cons2 (c1 c2 : Char) (rest : List Char) :
    hasCRLF (c1 :: c2 :: rest) = ((c1 == '\r' && c2 == '\n') || hasCRLF (c2 :: rest)) := rfl

/-- Scanning a separator-free buffer yields it as the single token (or
nothing when buffer and accumulator are both empty). -/
theorem splitGo_no_sep (sep : Char) :
    ∀ (t : List Char), sep ∉ t → ∀ acc : List Char,
      splitGo sep t acc = if acc ++ t = [] then [] else [acc ++ t]
  | [], _, acc => by simp [splitGo_nil]
  | c :: t', h, acc => by
    have hc : ¬(c = sep) := fun hEq => h (by rw [hEq]; exact List.mem_cons_self sep t')
    have ht' : sep ∉ t' := fun hm => h (List.mem_cons_of_mem _ hm)
    rw [splitGo_cons, if_neg hc, splitGo_no_sep sep t' ht' (acc ++ [c]),
      List.append_assoc, List.singleton_append]

/-- Scanning a buffer that starts with a separator-free token followed by the
separator emits that token and continues with a fresh accumulator. -/
theorem splitGo_prefix (sep : Char) :
    ∀ (t : List Char), sep ∉ t → ∀ (acc s : List Char),
      splitGo sep (t ++ sep :: s) acc = (acc ++ t) :: splitGo sep s []
  | [], _, acc, s => by simp [splitGo_cons]
  | c :: t', h, acc, s => by
    have hc : ¬(c = sep) := fun hEq => h (by rw [hEq]; exact List.mem_cons_self sep t')
    have ht' : sep ∉ t' := fun hm => h (List.mem_cons_of_mem _ hm)
    rw [List.cons_append, splitGo_cons, if_neg hc,
      splitGo_prefix sep t' ht' (acc ++ [c]) s,
      List.append_assoc, List.singleton_append]

/-- On a nonempty buffer the number of tokens does not depend on the
accumulator that the scan starts with. -/
theorem splitGo_length_indep (sep : Char) :
    ∀ (t : List Char), t ≠ [] → ∀ acc1 acc2 : List Char,
      (splitGo sep t acc1).length = (splitGo sep t acc2).length
  | [], h, _, _ => absurd rfl h
  | c :: t', _, acc1, acc2 => by
    by_cases hc : c = sep
    · rw [splitGo_cons, splitGo_cons, if_pos hc, if_pos hc]
      simp
    · rw [splitGo_cons, splitGo_cons, if_neg hc, if_neg hc]
      cases t' with
      | nil => rw [splitGo_nil, splitGo_nil]; simp
      | cons d t'' =>
        exact splitGo_length_indep sep (d :: t'') (by simp) (acc1 ++ [c]) (acc2 ++ [c])

/-- The scan yields at least one token when the buffer or the accumulator is
nonempty. -/
theorem splitGo_length_pos (sep : Char) :
    ∀ (t acc : List Char), t ≠ [] ∨ acc ≠ [] → 1 ≤ (splitGo sep t acc).length
  | [], acc, h => by
    have hacc : ¬(acc = []) := by
      rcases h with h | h
      · exact absurd rfl h
      · exact h
    rw [splitGo_nil, if_neg hacc]
    simp
  | c :: t', acc, _ => by
    by_cases hc : c = sep
    · rw [splitGo_cons, if_pos hc]
      simp
    · rw [splitGo_cons, if_neg hc]
      exact splitGo_length_pos sep t' (acc ++ [c]) (Or.inr (by simp))

/-- A nonempty buffer splits into at least two tokens exactly when it
contains the separator somewhere before its final character. -/
theorem splitGo_two_iff (sep : Char) :
    ∀ (t : List Char), t ≠ [] →
      (2 ≤ (splitGo sep t []).length ↔ sep ∈ t.dropLast)
  | [], h => absurd rfl h
  | [c], _ => by
    by_cases hc : c = sep
    · rw [splitGo_cons, if_pos hc, splitGo_nil]
      simp
    · rw [splitGo_cons, if_neg hc, splitGo_nil]
      simp
  | c :: d :: t'', _ => by
    by_cases hc : c = sep
    · rw [splitGo_cons, if_pos hc, List.dropLast_cons₂]
      constructor
      · intro _
        rw [← hc]
        exact List.mem_cons_self c _
      · intro _
        have h1 := splitGo_length_pos sep (d :: t'') [] (Or.inl (by simp))
        simp only [List.length_cons]
        omega
    · rw [splitGo_cons, if_neg hc, List.dropLast_cons₂,
        splitGo_length_indep sep (d :: t'') (by simp) ([] ++ [c]) [],
        splitGo_two_iff sep (d :: t'') (by simp)]
      constructor
      · intro hm
        exact List.mem_cons_of_mem _ hm
      · intro hm
        rcases List.mem_cons.mp hm with h | h
        · exact absurd h.symm hc
        · exact h

/-- Scanning a terminator-free segment followed by a CR-LF pair emits the
segment (appended to whatever the accumulator held) as one line and
continues after the terminator; an empty line stops the scan. -/
theorem extractGo_skip :
    ∀ (l : List Char), hasCRLF l = false → ∀ (acc rest : List Char),
      extractGo (l ++ '\r' :: '\n' :: rest) acc =
        if acc ++ l = [] then [] else (acc ++ l) :: extractGo rest []
  | [], _, acc, rest => by
    rw [List.nil_append, extractGo_cons2, if_pos ⟨rfl, rfl⟩]
    simp
  | c :: l', h, acc, rest => by
    cases l' with
    | nil =>
      have hc : ¬(c = '\r' ∧ '\r' = '\n') := by
        intro hp
        exact absurd hp.2 (by decide)
      rw [List.cons_append, List.nil_append, extractGo_cons2, if_neg hc,
        extractGo_cons2, if_pos ⟨rfl, rfl⟩]
    | cons d l'' =>
      have hparts : ((c == '\r' && d == '\n') || hasCRLF (d :: l'')) = false := by
        rw [← hasCRLF_cons2]
        exact h
      have hcd : (c == '\r' && d == '\n') = false := by
        cases hb : (c == '\r' && d == '\n') with
        | false => rfl
        | true => rw [hb] at hparts; simp at hparts
      have htail : hasCRLF (d :: l'') = false := by
        cases hb : hasCRLF (d :: l'') with
        | false => rfl
        | true => rw [hb] at hparts; simp at hparts
      have hc : ¬(c = '\r' ∧ d = '\n') := by
        intro hp
        rw [hp.1, hp.2] at hcd
        simp at hcd
      have hrec := extractGo_skip (d :: l'') htail (acc ++ [c]) rest
      rw [List.cons_append] at hrec
      rw [List.cons_append, List.cons_append, extractGo_cons2, if_neg hc, hrec,
        List.append_assoc, List.singleton_append]

/-- `find_first` reports no router exactly when no element of the list is
`same_router`-equal to the argument. -/
theorem find_first_eq_none_iff :
    ∀ (lst : List Router) (r : Router),
      find_first lst r = none ↔ ∀ x ∈ lst, same_router x r = false
  | [], r => by simp [find_first]
  | x :: rest, r => by
    by_cases hx : same_router x r
    · simp [find_first, hx]
    · simp only [find_first, if_neg hx, List.mem_cons]
      rw [find_first_eq_none_iff rest r]
      constructor
      · intro hall y hy
        rcases hy with hy | hy
        · rw [hy]
          exact Bool.of_not_eq_true hx
        · exact hall y hy
      · intro hall y hy
        exact hall y (Or.inr hy)

/-- Removing a router that matches no list element fails and leaves the list
unchanged. -/
theorem remove_route_no_match :
    ∀ (lst : List Router) (r : Router),
      (∀ x ∈ lst, same_router x r = false) → remove_route lst r = (false, lst)
  | [], _, _ => rfl
  | x :: rest, r, h => by
    have hx : same_router x r = false := h x (List.mem_cons_self x rest)
    have hrest := remove_route_no_match rest r (fun y hy => h y (List.mem_cons_of_mem _ hy))
    simp [remove_route, hx, hrest]

/-- C1.  The claim says the binding mode determines the bound address (DEV →
127.0.0.1, PROD → 0.0.0.0).  The code disagrees: `server_init` assigns
`INADDR_ANY` (0.0.0.0) unconditionally and never consults the mode
(src/src/server.c:144-147), contradicting the facade header's documentation
of `DEV`; a server created with mode DEV is bound to all interfaces, not to
the loopback address. -/
theorem claim_C1_bind_addr :
    (server_init 8080 10 5 Mode.DEV).bindAddr = INADDR_ANY ∧
    (∀ (p m b : Nat) (md : Mode), (server_init p m b md).bindAddr = INADDR_ANY) ∧
    INADDR_ANY ≠ LOOPBACK_ADDR :=
  ⟨rfl, fun _ _ _ _ => rfl, by decide⟩

/-- C2.  The claim says the active-client count always equals the number of
nonzero client slots, every removal path decrementing the count.  The code
disagrees on the fallback path: after a failed `process_header` the 404
fallback is written and `remove_client` zeroes the slot, but `num_clients`
is not decremented (server.c:313-321; the other two removal paths do
decrement).  Concretely: one tracked client (socket 5) sends a request that
matches no route; afterwards every slot is 0 yet the count is still 1. -/
theorem claim_C2_count_desync :
    serverRun 1 [] mockAddHttp mockWrite
        [(AcceptEvent.conn 5, [ReadEvent.notReady]),
         (AcceptEvent.quiet, [ReadEvent.data reqNoRoute])] ([0], 0)
      = some ([0], 1) ∧
    activeSlots [0] = 0 ∧
    (1 : Int) ≠ (activeSlots [0] : Int) := by
  refine ⟨by decide, by decide, by decide⟩

/-- C3 counterexample.  The claim says any buffer with no CR-LF pair yields
the FAIL method; but `GET /x HTTP/1.1` contains no CR-LF pair and route
extraction yields method GET (the trailing partial segment is emitted as the
request line and parsed normally). -/
theorem claim_C3_counterexample :
    hasCRLF noCrlfBuf = false ∧
    (extract_router noCrlfBuf).map Router.method = some Method.GET ∧
    some Method.GET ≠ some Method.FAIL := by
  refine ⟨by decide, by decide, by decide⟩

/-- C3 (amended).  Route extraction on `GET /hello HTTP/1.1\r\nHost: x\r\n\r\n`
yields method GET and path "/hello"; route extraction on an empty buffer
yields the FAIL method; a nonempty buffer with no CR-LF pair does not yield
FAIL — its whole content is emitted as a trailing partial line and parsed as
the request line (`GET /x HTTP/1.1` yields method GET and path "/x"). -/
theorem claim_C3_request_line :
    (extract_router helloBuf).map Router.method = some Method.GET ∧
    (extract_router helloBuf).map Router.path = some (some ("/hello".toList)) ∧
    extract_router [] = some failRouter ∧
    (extract_router noCrlfBuf).map Router.method = some Method.GET ∧
    (extract_router noCrlfBuf).map Router.path = some (some ("/x".toList)) := by
  refine ⟨by decide, by decide, rfl, by decide, by decide⟩

/-- C4 counterexample.  The claim lists three failure conditions and says
that otherwise success holds iff the write transferred a positive byte
count.  At connection handle -1 none of the three conditions holds and the
write environment would report 1 byte, yet `execute_handler` reports failure
(the guard `client_sock == -1` exits before the handler is even invoked,
handlers.c:21). -/
theorem claim_C4_counterexample :
    hHello () = some ("Hello".toList) ∧
    mockAddHttp ("Hello".toList) 5 = some ("Hello".toList) ∧
    0 < mockWrite (-1) ("Hello".toList) ∧
    (execute_handler [] (-1) (some hHello) mockAddHttp mockWrite).1 = false := by
  refine ⟨by decide, by decide, by decide, by decide⟩

/-- C4 (amended).  Handler execution reports failure immediately when the
connection handle is -1 or the handler callback is absent; reports failure
when the invoked handler returns an absent result; reports failure when
response construction returns an absent result; and otherwise (handle ≠ -1)
reports success iff the write of the constructed response transferred a
positive number of bytes. -/
theorem claim_C4_execute_handler (hdr : List Char) (sock : Int) (h : HandlerFn)
    (add_http : List Char → Nat → Option (List Char))
    (writeF : Int → List Char → Int) :
    (execute_handler hdr sock none add_http writeF).1 = false ∧
    (sock = -1 → (execute_handler hdr sock (some h) add_http writeF).1 = false) ∧
    (h () = none → (execute_handler hdr sock (some h) add_http writeF).1 = false) ∧
    (∀ body, h () = some body → add_http body body.length = none →
      (execute_handler hdr sock (some h) add_http writeF).1 = false) ∧
    (∀ body resp, sock ≠ -1 → h () = some body → add_http body body.length = some resp →
      ((execute_handler hdr sock (some h) add_http writeF).1 = true ↔
        0 < writeF sock resp)) := by
  refine ⟨?_, ?_, ?_, ?_, ?_⟩
  · by_cases hs : sock = -1 <;> simp [execute_handler, hs]
  · intro hs
    simp [execute_handler, hs]
  · intro hh
    by_cases hs : sock = -1 <;> simp [execute_handler, hs, hh]
  · intro body hh hadd
    by_cases hs : sock = -1 <;> simp [execute_handler, hs, hh, hadd]
  · intro body resp hs hh hadd
    simp [execute_handler, hs, hh, hadd]

/-- C4 witness: the success-iff-positive-write case at a concrete socket,
handler and environment. -/
theorem claim_C4_witness :
    (execute_handler [] 3 (some hHello) mockAddHttp mockWrite).1 = true ↔
      0 < mockWrite 3 ("Hello".toList) :=
  (claim_C4_execute_handler [] 3 hHello mockAddHttp mockWrite).2.2.2.2
    ("Hello".toList) ("Hello".toList) (by decide) (by decide) (by decide)

/-- C5.  Processing a header whose extraction yields the FAIL method reports
failure with no write on the connection; likewise when no registered route is
`same_router`-equal to the extracted route; when a first matching route
exists, processing returns `execute_handler` on the original header, the
connection handle and the matched handler, unchanged. -/
theorem claim_C5_process_header (hdr : List Char) (sock : Int)
    (router_lst : List Router)
    (add_http : List Char → Nat → Option (List Char))
    (writeF : Int → List Char → Int) (er : Router)
    (hext : extract_router hdr = some er) :
    (er.method = Method.FAIL →
      process_header hdr sock router_lst add_http writeF = some (false, [])) ∧
    (er.method ≠ Method.FAIL → (∀ x ∈ router_lst, same_router x er = false) →
      process_header hdr sock router_lst add_http writeF = some (false, [])) ∧
    (∀ rt, er.method ≠ Method.FAIL → find_first router_lst er = some rt →
      process_header hdr sock router_lst add_http writeF =
        some (execute_handler hdr sock rt.handler add_http writeF)) := by
  refine ⟨?_, ?_, ?_⟩
  · intro hf
    simp [process_header, hext, hf]
  · intro hnf hall
    have hnone : find_first router_lst er = none :=
      (find_first_eq_none_iff router_lst er).mpr hall
    simp [process_header, hext, hnf, hnone]
  · intro rt hnf hfind
    simp [process_header, hext, hnf, hfind]

/-- C5 witness: the well-formed request against an empty route table reports
failure with an empty write trace. -/
theorem claim_C5_witness :
    process_header helloBuf 7 [] mockAddHttp mockWrite = some (false, []) :=
  (claim_C5_process_header helloBuf 7 [] mockAddHttp mockWrite
      ⟨Method.GET, some ("/hello".toList), none⟩ rfl).2.1
    (by decide) (fun x hx => absurd hx (List.not_mem_nil x))

/-- The join of a nonempty token sequence whose final token is nonempty is a
nonempty buffer. -/
theorem joinSep_ne_nil (sep : Char) :
    ∀ (toks : List (List Char)), toks ≠ [] → toks.getLast? ≠ some [] →
      joinSep sep toks ≠ []
  | [], h, _ => absurd rfl h
  | [t], _, hlast => by
    have ht : t ≠ [] := by
      intro h0
      exact hlast (by rw [h0]; rfl)
    simpa [joinSep] using ht
  | t :: t2 :: rest, _, _ => by
    simp [joinSep]

/-- Round trip: scanning the join of separator-free tokens (final token
nonempty) returns exactly the tokens. -/
theorem splitGo_joinSep (sep : Char) :
    ∀ (toks : List (List Char)), toks ≠ [] → (∀ t ∈ toks, sep ∉ t) →
      toks.getLast? ≠ some [] → splitGo sep (joinSep sep toks) [] = toks
  | [], h, _, _ => absurd rfl h
  | [t], _, hsep, hlast => by
    have ht : t ≠ [] := by
      intro h0
      exact hlast (by rw [h0]; rfl)
    have hn : sep ∉ t := hsep t (List.mem_cons_self t [])
    rw [show joinSep sep [t] = t from rfl, splitGo_no_sep sep t hn []]
    simp [ht]
  | t :: t2 :: rest, _, hsep, hlast => by
    have hn : sep ∉ t := hsep t (List.mem_cons_self t _)
    have hsep' : ∀ x ∈ t2 :: rest, sep ∉ x :=
      fun x hx => hsep x (List.mem_cons_of_mem _ hx)
    rw [List.getLast?_cons_cons] at hlast
    rw [show joinSep sep (t :: t2 :: rest) = t ++ sep :: joinSep sep (t2 :: rest) from rfl,
      splitGo_prefix sep t hn [] (joinSep sep (t2 :: rest)),
      splitGo_joinSep sep (t2 :: rest) (by simp) hsep' hlast]
    simp

/-- C6 counterexample.  The tokens ["a", ""] contain no separator, yet
splitting their join "a," yields the single token ["a"]: the trailing empty
token is lost (the C emits a trailing token only when characters remain
after the last separator). -/
theorem claim_C6_counterexample :
    (∀ t ∈ [("a".toList), ([] : List Char)], ',' ∉ t) ∧
    joinSep ',' [("a".toList), []] = "a,".toList ∧
    split (some ("a,".toList)) ',' = some [("a".toList)] ∧
    some [("a".toList)] ≠ some [("a".toList), ([] : List Char)] := by
  refine ⟨by decide, by decide, by decide, by decide⟩

/-- C6 (amended).  For every nonempty sequence of tokens none of which
contains the separator and whose final token is nonempty, splitting the join
yields exactly the tokens in order (the C array's NULL end marker
corresponds to the end of the returned list); splitting an empty or absent
buffer yields the cannot-process result. -/
theorem claim_C6_split_round_trip (sep : Char) (toks : List (List Char))
    (hne : toks ≠ []) (hsep : ∀ t ∈ toks, sep ∉ t)
    (hlast : toks.getLast? ≠ some []) :
    split (some (joinSep sep toks)) sep = some toks ∧
    split (some []) sep = none ∧
    split none sep = none := by
  refine ⟨?_, rfl, rfl⟩
  have hj := joinSep_ne_nil sep toks hne hlast
  simp only [split, if_neg hj]
  rw [splitGo_joinSep sep toks hne hsep hlast]

/-- C6 witness: the round trip at tokens ["a", "b"] and separator ','. -/
theorem claim_C6_witness :
    split (some (joinSep ',' [("a".toList), ("b".toList)])) ',' =
        some [("a".toList), ("b".toList)] ∧
    split (some []) ',' = none ∧
    split none ',' = none :=
  claim_C6_split_round_trip ',' [("a".toList), ("b".toList)]
    (by decide) (by decide) (by decide)

/-- C7.  A buffer of two nonempty terminator-free lines, each ending in
CR-LF, followed by a blank line (a second CR-LF directly after the previous
one) and arbitrary trailing bytes extracts to exactly those two lines;
nothing at or after the blank line is included. -/
theorem claim_C7_lines_stop_at_blank (l1 l2 rest : List Char)
    (h1 : l1 ≠ []) (h2 : l2 ≠ [])
    (hc1 : hasCRLF l1 = false) (hc2 : hasCRLF l2 = false) :
    extract_lines
        (some (l1 ++ '\r' :: '\n' :: (l2 ++ '\r' :: '\n' :: ('\r' :: '\n' :: rest))))
      = some [l1, l2] := by
  have hbuf : l1 ++ '\r' :: '\n' :: (l2 ++ '\r' :: '\n' :: ('\r' :: '\n' :: rest)) ≠ [] := by
    simp
  simp only [extract_lines, if_neg hbuf]
  rw [extractGo_skip l1 hc1 [] (l2 ++ '\r' :: '\n' :: ('\r' :: '\n' :: rest))]
  rw [List.nil_append, if_neg h1]
  rw [extractGo_skip l2 hc2 [] ('\r' :: '\n' :: rest)]
  rw [List.nil_append, if_neg h2]
  rw [extractGo_cons2, if_pos ⟨rfl, rfl⟩, if_pos rfl]

/-- C7 witness: a concrete request line and Host line followed by a blank
line and a body. -/
theorem claim_C7_witness :
    extract_lines
        (some (("GET / HTTP/1.1".toList) ++ '\r' :: '\n' ::
          (("Host: x".toList) ++ '\r' :: '\n' :: ('\r' :: '\n' :: ("body".toList)))))
      = some [("GET / HTTP/1.1".toList), ("Host: x".toList)] :=
  claim_C7_lines_stop_at_blank ("GET / HTTP/1.1".toList) ("Host: x".toList)
    ("body".toList) (by decide) (by decide) (by decide) (by decide)

/-- C8.  For routes [a, b, c] with a and c not `same_router`-equal to b
(pairwise-distinct method+path implies this), removing b succeeds and leaves
exactly [a, c] in order, a subsequent search for b reports -1, and removing
a route matching nothing fails and leaves any table unchanged. -/
theorem claim_C8_remove_compaction (a b c : Router)
    (hab : same_router a b = false) (hcb : same_router c b = false) :
    remove_route [a, b, c] b = (true, [a, c]) ∧
    find_route [a, c] b = -1 ∧
    (∀ (lst : List Router) (r : Router), (∀ x ∈ lst, same_router x r = false) →
      remove_route lst r = (false, lst)) := by
  refine ⟨?_, ?_, remove_route_no_match⟩
  · simp [remove_route, hab, same_router_self]
  · simp [find_route, findIdx, hab, hcb]

/-- C8 witness: removal of POST /a from [GET /a, POST /a, GET /c]. -/
theorem claim_C8_witness :
    remove_route [routeA, routeB, routeC] routeB = (true, [routeA, routeC]) ∧
    find_route [routeA, routeC] routeB = -1 ∧
    (∀ (lst : List Router) (r : Router), (∀ x ∈ lst, same_router x r = false) →
      remove_route lst r = (false, lst)) :=
  claim_C8_remove_compaction routeA routeB routeC (by decide) (by decide)

/-- C9.  An unrecognized verb leaves the extracted route's method at the
enumeration's zero value, which is GET: `parse_method` returns GET on every
string other than the four verbs, the PATCH request extracts to method GET,
and processing the PATCH request against a table holding GET /hello
dispatches that route's handler exactly as the GET request would. -/
theorem claim_C9_unknown_verb (sock : Int) (h : HandlerFn)
    (add_http : List Char → Nat → Option (List Char))
    (writeF : Int → List Char → Int) :
    methodCode Method.GET = 0 ∧
    (∀ m : List Char, m ≠ "GET".toList → m ≠ "POST".toList → m ≠ "PUT".toList →
      m ≠ "DELETE".toList → parse_method m = Method.GET) ∧
    (extract_router patchBuf).map Router.method = some Method.GET ∧
    process_header patchBuf sock [⟨Method.GET, some ("/hello".toList), some h⟩]
        add_http writeF
      = some (execute_handler patchBuf sock (some h) add_http writeF) ∧
    process_header patchBuf sock [⟨Method.GET, some ("/hello".toList), some h⟩]
        add_http writeF
      = process_header getBuf sock [⟨Method.GET, some ("/hello".toList), some h⟩]
        add_http writeF := by
  refine ⟨rfl, ?_, by decide, rfl, rfl⟩
  intro m h1 h2 h3 h4
  simp only [parse_method]
  rw [if_neg h1, if_neg h2, if_neg h3, if_neg h4]

/-- C9 witness: the verb PATCH parses to GET. -/
theorem claim_C9_witness :
    parse_method ("PATCH".toList) = Method.GET :=
  (claim_C9_unknown_verb 7 hHello mockAddHttp mockWrite).2.1 ("PATCH".toList)
    (by decide) (by decide) (by decide) (by decide)

/-- C10 counterexample.  The claim says the index-1 access is in bounds iff
the first line contains at least one space.  The line "GET " contains a
space, yet splitting it yields the single token ["GET"] (no characters
remain after the separator), and route extraction of the corresponding
request runs into the out-of-bounds access (`strdup` of the NULL end
marker, modelled as `none`). -/
theorem claim_C10_counterexample :
    ' ' ∈ "GET ".toList ∧
    split (some ("GET ".toList)) ' ' = some [("GET".toList)] ∧
    (splitGo ' ' ("GET ".toList) []).length = 1 ∧
    extract_router ("GET \r\n\r\n".toList) = none := by
  refine ⟨by decide, by decide, by decide, rfl⟩

/-- C10 (amended).  The index-1 access is within the token-sequence bounds
iff the split of the first line yields at least two tokens, which holds iff
the line contains a space before its final character; a line with no space
at all yields the one-element token sequence [line]; and on a request made
of that single line the access falls outside the token sequence (undefined
`strdup(NULL)`, modelled `none`) exactly when the split yields fewer than
two tokens. -/
theorem claim_C10_token_bounds (line : List Char) (hne : line ≠ [])
    (hcrlf : hasCRLF line = false) :
    (2 ≤ (splitGo ' ' line []).length ↔ ' ' ∈ line.dropLast) ∧
    (' ' ∉ line → splitGo ' ' line [] = [line]) ∧
    (extract_router (line ++ '\r' :: '\n' :: '\r' :: '\n' :: []) = none ↔
      (splitGo ' ' line []).length < 2) := by
  refine ⟨splitGo_two_iff ' ' line hne, ?_, ?_⟩
  · intro hn
    rw [splitGo_no_sep ' ' line hn []]
    simp [hne]
  · have hbuf : line ++ '\r' :: '\n' :: '\r' :: '\n' :: [] ≠ [] := by simp
    have hE : extract_lines (some (line ++ '\r' :: '\n' :: '\r' :: '\n' :: []))
        = some [line] := by
      simp only [extract_lines, if_neg hbuf]
      rw [extractGo_skip line hcrlf [] ('\r' :: '\n' :: [])]
      rw [List.nil_append, if_neg hne, extractGo_cons2, if_pos ⟨rfl, rfl⟩, if_pos rfl]
    unfold extract_router
    rw [hE]
    cases hsp : splitGo ' ' line [] with
    | nil =>
      have hpos := splitGo_length_pos ' ' line [] (Or.inl hne)
      rw [hsp] at hpos
      simp at hpos
    | cons m restToks =>
      have hS : split (some line) ' ' = some (m :: restToks) := by
        rw [show split (some line) ' ' =
              if line = [] then none else some (splitGo ' ' line []) from rfl,
          if_neg hne, hsp]
      dsimp only
      rw [hS]
      cases restToks with
      | nil => simp
      | cons p more => simp

/-- C10 witness: the request line "GET /x HTTP/1.1". -/
theorem claim_C10_witness :
    (2 ≤ (splitGo ' ' ("GET /x HTTP/1.1".toList) []).length ↔
      ' ' ∈ ("GET /x HTTP/1.1".toList).dropLast) ∧
    (' ' ∉ ("GET /x HTTP/1.1".toList) →
      splitGo ' ' ("GET /x HTTP/1.1".toList) [] = [("GET /x HTTP/1.1".toList)]) ∧
    (extract_router (("GET /x HTTP/1.1".toList) ++ '\r' :: '\n' :: '\r' :: '\n' :: [])
        = none ↔
      (splitGo ' ' ("GET /x HTTP/1.1".toList) []).length < 2) :=
  claim_C10_token_bounds ("GET /x HTTP/1.1".toList) (by decide) (by decide)

end CExpress
